import Mathlib

/-!
Verification of the `clitool2` package (modules `clitool2/clitool.py` and
`clitool2/clitoolbox.py`) against its natural-language specification.

The Python code is shallowly embedded: Python values are modelled by the
inductive `PyVal`, raised exceptions by `Except PyExc`, and each Python
function of the repository by a Lean function of the same name.  Library
collaborators (`argparse`, `json.loads`, `str.title`, `str.splitlines`,
`re.match` for the one fixed pattern) are modelled from their documented
behaviour on the value shapes this program feeds them.
-/

namespace Clitool2

/-- Platform line separator (`os.linesep` on POSIX). -/
def linesep : String := "\n"

/-- Python `str.strip()` (whitespace at both ends). -/
def pyStrip (s : String) : String :=
  String.mk
    ((s.data.dropWhile Char.isWhitespace).reverse.dropWhile Char.isWhitespace).reverse

/-- Python `str.lower()` (ASCII range, which is all the program feeds it). -/
def pyLower (s : String) : String := String.mk (s.data.map Char.toLower)

/-- Tests that `s2` is a leading segment of `s1` (both as character lists). -/
def charListStarts : List Char → List Char → Bool
  | _, [] => true
  | [], _ :: _ => false
  | c :: cs, p :: ps => c = p && charListStarts cs ps

/-- Python `s.startswith(pre)`, over character lists. -/
def strStarts (s pre : String) : Bool := charListStarts s.data pre.data

/-- Python `c in s` for a single character. -/
def strHasChar (s : String) (c : Char) : Bool := s.data.contains c

/-- Auxiliary for `pyTitle`: the Boolean records whether the previous
character was alphabetic. -/
def pyTitleAux : Bool → List Char → List Char
  | _, [] => []
  | prevAlpha, c :: cs =>
    if c.isAlpha then
      (if prevAlpha then c.toLower else c.toUpper) :: pyTitleAux true cs
    else
      c :: pyTitleAux false cs

/-- Python `str.title()`: the first character of every alphabetic run is
upper-cased, the rest of the run lower-cased; other characters pass through. -/
def pyTitle (s : String) : String := String.mk (pyTitleAux false s.data)

/-- Auxiliary for `splitlines`: `cur` holds the current line reversed. -/
def splitlinesAux (cur : List Char) : List Char → List String
  | [] => if cur.isEmpty then [] else [String.mk cur.reverse]
  | '\r' :: '\n' :: rest => String.mk cur.reverse :: splitlinesAux [] rest
  | '\r' :: rest => String.mk cur.reverse :: splitlinesAux [] rest
  | '\n' :: rest => String.mk cur.reverse :: splitlinesAux [] rest
  | c :: rest => splitlinesAux (c :: cur) rest

/-- Python `str.splitlines()`: splits at line boundaries; a trailing
terminator does not produce a final empty line, and `"".splitlines() = []`. -/
def splitlines (s : String) : List String := splitlinesAux [] s.data

/-- Drop every trailing `':'` character, as Python `str.rstrip(":")` does. -/
def rstripColons (s : String) : String :=
  String.mk (s.data.reverse.dropWhile (· = ':')).reverse

/-- Auxiliary for `strContains`: does `sub` start at any position of the
list? -/
def containsAux (sub : List Char) : List Char → Bool
  | [] => sub.isEmpty
  | c :: rest => charListStarts (c :: rest) sub || containsAux sub rest

/-- Substring containment, Python `sub in s`. -/
def strContains (s sub : String) : Bool := containsAux sub.data s.data

/-- Python values of the shapes this program manipulates.  `float` and
`datetime` payloads are kept opaque (their literal text): the program never
computes with them, it only dispatches on their runtime type. -/
inductive PyVal where
  | none
  | bool (b : Bool)
  | int (n : Int)
  | float (repr : String)
  | datetime (repr : String)
  | str (s : String)
  | list (xs : List PyVal)
  | tuple (xs : List PyVal)
  | dict (entries : List (String × PyVal))

/-- Exceptions this program raises or propagates. -/
inductive PyExc where
  | valueError (msg : String)
  | typeError (msg : String)
  | indexError (msg : String)
  deriving DecidableEq, Repr

/-- Python `type(v).__name__` for the modelled values. -/
def typeName : PyVal → String
  | .none => "NoneType"
  | .bool _ => "bool"
  | .int _ => "int"
  | .float _ => "float"
  | .datetime _ => "datetime"
  | .str _ => "str"
  | .list _ => "list"
  | .tuple _ => "tuple"
  | .dict _ => "dict"

mutual

/-- Structural equality of modelled Python values (used by `pyEq` below). -/
def pyBeq : PyVal → PyVal → Bool
  | .none, .none => true
  | .bool a, .bool b => a = b
  | .int a, .int b => a = b
  | .float a, .float b => a = b
  | .datetime a, .datetime b => a = b
  | .str a, .str b => a = b
  | .list a, .list b => pyBeqList a b
  | .tuple a, .tuple b => pyBeqList a b
  | .dict a, .dict b => pyBeqEntries a b
  | _, _ => false

/-- Componentwise equality of value lists. -/
def pyBeqList : List PyVal → List PyVal → Bool
  | [], [] => true
  | x :: xs, y :: ys => pyBeq x y && pyBeqList xs ys
  | _, _ => false

/-- Componentwise equality of dict entry lists. -/
def pyBeqEntries : List (String × PyVal) → List (String × PyVal) → Bool
  | [], [] => true
  | (k, x) :: xs, (l, y) :: ys => k = l && pyBeq x y && pyBeqEntries xs ys
  | _, _ => false

end

/-- Python `==` on the modelled values.  Booleans compare equal to their
numeric value (`True == 1`); otherwise values of distinct runtime types
compare unequal, and containers compare componentwise (structurally here,
which agrees with Python on every comparison this program performs). -/
def pyEq (a b : PyVal) : Bool :=
  match a, b with
  | .bool x, .int n => (if x then (1 : Int) else 0) = n
  | .int n, .bool x => n = (if x then (1 : Int) else 0)
  | _, _ => pyBeq a b

/-- Python dict assignment `d[k] = v`: update in place when the key exists
(keeping its position, as `dict`/`OrderedDict` both do), else append. -/
def dictSet (d : List (String × PyVal)) (k : String) (v : PyVal) :
    List (String × PyVal) :=
  if d.any (·.1 = k) then d.map (fun p => if p.1 = k then (k, v) else p)
  else d ++ [(k, v)]

/-- Analogue of `dictSet` for string-valued dicts (the `OrderedDict` of `_parse_docargs`). -/
def odSet (d : List (String × String)) (k v : String) :
    List (String × String) :=
  if d.any (·.1 = k) then d.map (fun p => if p.1 = k then (k, v) else p)
  else d ++ [(k, v)]

/-- Python `result[name] += add` on a string-valued dict whose key `name` exists. -/
def odAppend (d : List (String × String)) (k add : String) :
    List (String × String) :=
  d.map (fun p => if p.1 = k then (p.1, p.2 ++ add) else p)

/-!  ## `clitool.py`: `_to_bool`  (lines 44-62) -/

/-- Embeds `_to_bool` (clitool.py:44): `text.title()` is compared against
`("True", "1")` and `("False", "0")`; any other input raises `ValueError`. -/
def _to_bool (text : String) : Except PyExc Bool :=
  if pyTitle text = "True" ∨ pyTitle text = "1" then
    .ok true
  else if pyTitle text = "False" ∨ pyTitle text = "0" then
    .ok false
  else
    .error (.valueError ("Expected 'True', 'False', '1', '0'; got '" ++ text ++ "'"))

/-!  ## `clitool.py`: `_parse_docargs`  (lines 64-94) -/

/-- A character of Python's regex class `\w` (ASCII range, which is all the
program's inputs use). -/
def isWordChar (c : Char) : Bool := c.isAlphanum || c = '_'

/-- Models `re.match(r"^(\w+):(.+)$", line)`: a maximal nonempty run of word
characters, then `':'`, then at least one character, reaching the end of the
line (lines carry no newline).  Returns the two groups. -/
def matchDocargLine (line : String) : Option (String × String) :=
  let name := line.data.takeWhile isWordChar
  let rest := line.data.dropWhile isWordChar
  match name, rest with
  | [], _ => Option.none
  | _, ':' :: tail =>
      if tail.isEmpty then Option.none else some (String.mk name, String.mk tail)
  | _, _ => Option.none

/-- The line loop of `_parse_docargs` (clitool.py:79-92): `name?` is the
`name` variable (`Option.none` before any match). -/
def docargsGo (name? : Option String) (result : List (String × String)) :
    List String → Except PyExc (List (String × String))
  | [] => .ok result
  | line :: rest =>
    match matchDocargLine line with
    | some (n, d) => docargsGo (some n) (odSet result n (pyStrip d)) rest
    | Option.none =>
      match name? with
      | some n => docargsGo name? (odAppend result n (" " ++ pyStrip line)) rest
      | Option.none =>
          .error (.valueError ("Expected name: value pair; got '" ++ line ++ "'"))

/-- Embeds `_parse_docargs` (clitool.py:64): ordered mapping of parameter
names to descriptions. -/
def _parse_docargs (text : String) : Except PyExc (List (String × String)) :=
  docargsGo Option.none [] (splitlines text)

/-!  ## `clitool.py`: `parse_docstr`  (lines 216-255) -/

/-- Embeds the namedtuple `DocInfo` (clitool.py:42). -/
structure DocInfo where
  summary : Option String
  description : Option String
  args : Option String
  returns : Option String
  yields : Option String
  raises : Option String
  deriving DecidableEq, Repr

/-- The six section names, `DocInfo._fields`. -/
def sectionNames : List String :=
  ["summary", "description", "args", "returns", "yields", "raises"]

/-- Python `line.lower().rstrip(":") in sections` — a line that looks like any
recognised section header, in any casing, with trailing colons ignored. -/
def isSectionHeaderLike (line : String) : Bool :=
  sectionNames.contains (rstripColons (pyLower line))

/-- The `test` lambda of `parse_docstr` (clitool.py:234): true while the line
is NOT a recognised section header. -/
def docTest (line : String) : Bool := ¬ isSectionHeaderLike line

/-- Python `takewhile(test, lines)`: the body lines collected for one section. -/
def takeBody (lines : List String) : List String := lines.takeWhile docTest

/-- Python `os.linesep.join(matches)` then `.strip()`, under the `if matches:`
guard (clitool.py:248-253): `Option.none` when no lines were collected. -/
def secValue (ms : List String) : Option String :=
  if ms.isEmpty then Option.none
  else some (pyStrip (String.intercalate linesep ms))

/-- One headed section (`Args:`/`Returns:`/`Yields:`/`Raises:`,
clitool.py:244-246): when the next line equals the exact title-cased header,
consume it and collect body lines; else the section is absent. -/
def grabHeaderSec (header : String) (lines : List String) :
    Option String × List String :=
  match lines with
  | [] => (Option.none, lines)
  | l0 :: rest =>
      if l0 = header then
        let ms := takeBody rest
        (secValue ms, rest.drop ms.length)
      else (Option.none, lines)

/-- Embeds `parse_docstr` (clitool.py:216).  Faithful to the source, the
summary test `len(lines) == 1 or lines[1] == ""` raises `IndexError` on an
empty line list (empty or all-whitespace input). -/
def parse_docstr (text : String) : Except PyExc DocInfo := do
  let lines := (splitlines (pyStrip text)).map pyStrip
  let sumMatches ←
    match lines with
    | [] => .error (.indexError "list index out of range")
    | [_] => .ok (lines.take 1)
    | _ :: l1 :: _ => .ok (if l1 = "" then lines.take 1 else [])
  let summary := secValue sumMatches
  let lines := lines.drop sumMatches.length
  let desMatches := takeBody lines
  let description := secValue desMatches
  let lines := lines.drop desMatches.length
  let (args, lines) := grabHeaderSec "Args:" lines
  let (returns, lines) := grabHeaderSec "Returns:" lines
  let (yields, lines) := grabHeaderSec "Yields:" lines
  let (raises, _) := grabHeaderSec "Raises:" lines
  pure ⟨summary, description, args, returns, yields, raises⟩

/-!  ## `clitool.py`: signature introspection and the parser compiler -/

/-- The first four fields of `inspect.getfullargspec(func)`: positional
parameter names, the var-positional name, the var-keyword name, and the
tuple of defaults (aligned with the tail of `args`). -/
structure FuncSpec where
  args : List String
  varargs : Option String
  keywords : Option String
  defaults : List PyVal

/-- Python `optional = list(zip(args[len(args) - len(defaults):], defaults))`
(clitool.py:121 and 183). -/
def optionalOf (fs : FuncSpec) : List (String × PyVal) :=
  (fs.args.drop (fs.args.length - fs.defaults.length)).zip fs.defaults

/-- Python `required = args[:len(args) - len(defaults)]` (clitool.py:120). -/
def requiredOf (fs : FuncSpec) : List String :=
  fs.args.take (fs.args.length - fs.defaults.length)

/-- The type converters `argparse` may be handed by `_config_parser`. -/
inductive Conv where
  | toBool
  | toInt
  | toFloat
  | toDate
  | jsonLoads
  deriving DecidableEq, Repr

/-- Python `isinstance(v, bool)`. -/
def isinstance_bool : PyVal → Bool
  | .bool _ => true
  | _ => false

/-- Python `isinstance(v, int)`: true for `bool` too, since Python `bool` is a
subclass of `int`. -/
def isinstance_int : PyVal → Bool
  | .bool _ => true
  | .int _ => true
  | _ => false

/-- Python `isinstance(v, float)`. -/
def isinstance_float : PyVal → Bool
  | .float _ => true
  | _ => false

/-- Python `isinstance(v, datetime.datetime)`. -/
def isinstance_datetime : PyVal → Bool
  | .datetime _ => true
  | _ => false

/-- The converter-selection chain of `_config_parser` (clitool.py:137-146),
run on an optional parameter's default value. -/
def _default_type (default : PyVal) : Option Conv :=
  if isinstance_bool default then some .toBool
  else if isinstance_int default then some .toInt
  else if isinstance_float default then some .toFloat
  else if isinstance_datetime default then some .toDate
  else Option.none

/-- Python `"-" + name if len(name) == 1 else "--" + name` (clitool.py:134, 157). -/
def dashName (name : String) : String :=
  if name.length = 1 then "-" ++ name else "--" ++ name

/-- One argument definition added to the `ArgumentParser`.  `flag` is the
option string for optional arguments and `Option.none` for positionals;
`nargsStar` marks the `nargs="*"` var-positional argument; `default` is the
parser-level default (`PyVal.none` when `add_argument` received none). -/
structure ArgSpec where
  name : String
  flag : Option String
  nargsStar : Bool
  default : PyVal
  conv : Option Conv
  help : Option String

/-- Embeds `_config_parser` (clitool.py:96): the sequence of `add_argument`
calls performed for `func`, in source order — required positionals (skipping
`self`), optional flags typed from their default, the `nargs="*"`
var-positional, and the JSON-typed var-keyword flag. -/
def _config_argparser (fs : FuncSpec) (func_help : List (String × String)) :
    List ArgSpec :=
  let reqSpecs := (requiredOf fs).filterMap (fun a =>
    if a = "self" then Option.none
    else some ⟨a, Option.none, false, PyVal.none, Option.none, func_help.lookup a⟩)
  let optSpecs := (optionalOf fs).map (fun p =>
    ⟨p.1, some (dashName p.1), false, p.2, _default_type p.2, func_help.lookup p.1⟩)
  let varSpecs := match fs.varargs with
    | some v => [⟨v, Option.none, true, PyVal.none, Option.none, func_help.lookup v⟩]
    | Option.none => []
  let kwSpecs := match fs.keywords with
    | some k => [⟨k, some (dashName k), false, PyVal.none, some Conv.jsonLoads,
                  func_help.lookup k⟩]
    | Option.none => []
  reqSpecs ++ optSpecs ++ varSpecs ++ kwSpecs

/-!  ## Library converters handed to `argparse`

`int`, `float`, `dateutil.parser.parse` and `json.loads` are external
collaborators; they are modelled from their documented behaviour on the
value shapes this program feeds them. -/

/-- Digits of a decimal literal. -/
def digitsToNat? (cs : List Char) : Option Nat :=
  if cs.isEmpty ∨ cs.any (fun c => ¬ c.isDigit) then Option.none
  else some (cs.foldl (fun n c => n * 10 + (c.toNat - '0'.toNat)) 0)

/-- Python `int(text)` for base 10: optional sign, then digits. -/
def pyInt (text : String) : Except PyExc PyVal :=
  let t := pyStrip text
  let body : Except PyExc Int :=
    match t.data with
    | '-' :: ds => match digitsToNat? ds with
      | some n => .ok (-(n : Int))
      | Option.none => .error (.valueError
          ("invalid literal for int() with base 10: '" ++ text ++ "'"))
    | '+' :: ds => match digitsToNat? ds with
      | some n => .ok (n : Int)
      | Option.none => .error (.valueError
          ("invalid literal for int() with base 10: '" ++ text ++ "'"))
    | ds => match digitsToNat? ds with
      | some n => .ok (n : Int)
      | Option.none => .error (.valueError
          ("invalid literal for int() with base 10: '" ++ text ++ "'"))
  body.map PyVal.int

/-- Python `float(text)`: accepted literals keep their (stripped) text as
the opaque payload; anything not shaped `[sign] digits [. digits]` is a
`ValueError`.  (No claim computes with floating-point values.) -/
def pyFloat (text : String) : Except PyExc PyVal :=
  let t := pyStrip text
  let core := match t.data with
    | '-' :: ds => ds
    | '+' :: ds => ds
    | ds => ds
  let intPart := core.takeWhile Char.isDigit
  let rest := core.dropWhile Char.isDigit
  let ok : Bool := match rest with
    | [] => ¬ intPart.isEmpty
    | '.' :: frac => (¬ intPart.isEmpty || ¬ frac.isEmpty) && frac.all Char.isDigit
    | _ => false
  if ok then .ok (.float t)
  else .error (.valueError ("could not convert string to float: '" ++ text ++ "'"))

/-- Models `dateutil.parser.parse`: kept opaque — any nonempty text becomes a
datetime value carrying that text; empty input raises.  (No claim exercises
date parsing.) -/
def pyToDate (text : String) : Except PyExc PyVal :=
  if text.isEmpty then .error (.valueError "String does not contain a date")
  else .ok (.datetime text)

/-- JSON whitespace skip. -/
def jsonWs (cs : List Char) : List Char :=
  cs.dropWhile (fun c => c = ' ' ∨ c = '\t' ∨ c = '\n' ∨ c = '\r')

/-- A JSON string body after the opening quote (escapes are not modelled;
no input of this development contains them). -/
def jsonString (cs : List Char) : Option (String × List Char) :=
  let body := cs.takeWhile (· ≠ '"')
  match cs.dropWhile (· ≠ '"') with
  | '"' :: rest => some (String.mk body, rest)
  | _ => Option.none

mutual

/-- One JSON value (`json.loads` grammar restricted to the shapes the
program feeds it: objects, arrays, strings, integers, booleans, null). -/
def jsonValue : Nat → List Char → Option (PyVal × List Char)
  | 0, _ => Option.none
  | fuel + 1, cs =>
    match jsonWs cs with
    | '"' :: r => (jsonString r).map (fun p => (.str p.1, p.2))
    | '{' :: r => jsonObject fuel (jsonWs r) []
    | '[' :: r => jsonArray fuel (jsonWs r) []
    | 'n' :: 'u' :: 'l' :: 'l' :: r => some (.none, r)
    | 't' :: 'r' :: 'u' :: 'e' :: r => some (.bool true, r)
    | 'f' :: 'a' :: 'l' :: 's' :: 'e' :: r => some (.bool false, r)
    | '-' :: r =>
        let ds := r.takeWhile Char.isDigit
        (digitsToNat? ds).map (fun n => (.int (-(n : Int)), r.dropWhile Char.isDigit))
    | c :: r =>
        if c.isDigit then
          let ds := (c :: r).takeWhile Char.isDigit
          (digitsToNat? ds).map (fun n => (.int (n : Int), (c :: r).dropWhile Char.isDigit))
        else Option.none
    | [] => Option.none

/-- JSON object members after `{` (and after skipping whitespace). -/
def jsonObject (fuel : Nat) (cs : List Char) (acc : List (String × PyVal)) :
    Option (PyVal × List Char) :=
  match fuel, cs with
  | _, '}' :: r => some (.dict acc.reverse, r)
  | 0, _ => Option.none
  | fuel + 1, '"' :: r =>
    match jsonString r with
    | some (k, r1) =>
      match jsonWs r1 with
      | ':' :: r2 =>
        match jsonValue fuel r2 with
        | some (v, r3) =>
          match jsonWs r3 with
          | ',' :: r4 => jsonObject fuel (jsonWs r4) ((k, v) :: acc)
          | '}' :: r4 => some (.dict ((k, v) :: acc).reverse, r4)
          | _ => Option.none
        | Option.none => Option.none
      | _ => Option.none
    | Option.none => Option.none
  | _, _ => Option.none

/-- JSON array elements after `[` (and after skipping whitespace). -/
def jsonArray (fuel : Nat) (cs : List Char) (acc : List PyVal) :
    Option (PyVal × List Char) :=
  match fuel, cs with
  | _, ']' :: r => some (.list acc.reverse, r)
  | 0, _ => Option.none
  | fuel + 1, cs =>
    match jsonValue fuel cs with
    | some (v, r1) =>
      match jsonWs r1 with
      | ',' :: r2 => jsonArray fuel (jsonWs r2) (v :: acc)
      | ']' :: r2 => some (.list (v :: acc).reverse, r2)
      | _ => Option.none
    | Option.none => Option.none

end

/-- Models `json.loads(text)`: exactly one JSON value, possibly surrounded by
whitespace. -/
def jsonLoads (text : String) : Except PyExc PyVal :=
  match jsonValue (text.length + 1) text.data with
  | some (v, rest) =>
      if (jsonWs rest).isEmpty then .ok v
      else .error (.valueError "Extra data")
  | Option.none => .error (.valueError "Expecting value")

/-- Run one `argparse` type converter on a command-line string. -/
def applyConv : Conv → String → Except PyExc PyVal
  | .toBool, s => (_to_bool s).map PyVal.bool
  | .toInt, s => pyInt s
  | .toFloat, s => pyFloat s
  | .toDate, s => pyToDate s
  | .jsonLoads, s => jsonLoads s

/-!  ## `argparse` parsing model

`ArgumentParser.parse_args` is modelled for the argument shapes
`_config_parser` produces: at most one `nargs="*"` positional placed after
all unit positionals, and `-x`/`--name` options taking one value (inline
`--name=value` or as the following token).  A parser-level failure (unknown
option, invalid choice, converter error, missing or surplus positional) is a
usage exit, `Except.error ()` — argparse prints usage and terminates the
process, so it never surfaces as a Python exception. -/

/-- The initial namespace: every destination maps to its default
(`nargs="*"` positionals collect into an empty list when no token reaches
them). -/
def initNamespace (specs : List ArgSpec) : List (String × PyVal) :=
  specs.map (fun sp => (sp.name, if sp.nargsStar then PyVal.list [] else sp.default))

/-- The option spec owning a given option string. -/
def findFlagSpec (specs : List ArgSpec) (flag : String) : Option ArgSpec :=
  specs.find? (fun sp => sp.flag = some flag)

/-- Split `--name=value` at the first `'='`. -/
def splitEq (tok : String) : String × Option String :=
  if (tok.data.contains '=' : Bool) then
    (String.mk (tok.data.takeWhile (· ≠ '=')),
     some (String.mk ((tok.data.dropWhile (· ≠ '=')).drop 1)))
  else (tok, Option.none)

/-- Left-to-right token scan: options are applied to the namespace, other
tokens are collected into the positional pool. -/
def scanTokens (specs : List ArgSpec) :
    List String → List (String × PyVal) → List String →
    Except Unit (List (String × PyVal) × List String)
  | [], ns, pool => .ok (ns, pool.reverse)
  | tok :: rest, ns, pool =>
    if strStarts tok "-" ∧ tok.length > 1 then
      let (name, inline?) := if strStarts tok "--" then splitEq tok else (tok, Option.none)
      match findFlagSpec specs name with
      | Option.none => .error ()
      | some sp =>
        match inline? with
        | some value =>
          match (match sp.conv with
                 | some c => applyConv c value
                 | Option.none => .ok (.str value)) with
          | .ok v => scanTokens specs rest (dictSet ns sp.name v) pool
          | .error _ => .error ()
        | Option.none =>
          match rest with
          | [] => .error ()
          | value :: rest2 =>
            match (match sp.conv with
                   | some c => applyConv c value
                   | Option.none => .ok (.str value)) with
            | .ok v => scanTokens specs rest2 (dictSet ns sp.name v) pool
            | .error _ => .error ()
    else scanTokens specs rest ns (tok :: pool)

/-- Distribute the positional pool over the positional argument specs: each
unit positional consumes one token (missing one is a usage error), the
`nargs="*"` positional consumes every remaining token, and leftover tokens
are a usage error. -/
def fillPositionals : List ArgSpec → List String → List (String × PyVal) →
    Except Unit (List (String × PyVal))
  | [], [], ns => .ok ns
  | [], _ :: _, _ => .error ()
  | sp :: sps, pool, ns =>
    if sp.nargsStar then
      match sps with
      | [] =>
        match pool.mapM (fun t => match sp.conv with
               | some c => (applyConv c t).mapError (fun _ => ())
               | Option.none => .ok (.str t)) with
        | .ok vs => .ok (dictSet ns sp.name (.list vs))
        | .error _ => .error ()
      | _ :: _ => .error ()
    else
      match pool with
      | [] => .error ()
      | t :: pool2 =>
        match (match sp.conv with
               | some c => applyConv c t
               | Option.none => .ok (.str t)) with
        | .ok v => fillPositionals sps pool2 (dictSet ns sp.name v)
        | .error _ => .error ()

/-- Models `parser.parse_args(tokens)` → the namespace as a name-to-value dict. -/
def parseTokens (specs : List ArgSpec) (tokens : List String) :
    Except Unit (List (String × PyVal)) := do
  let (ns, pool) ← scanTokens specs tokens (initNamespace specs) []
  fillPositionals (specs.filter (·.flag.isNone)) pool ns

/-!  ## `clitool.py`: `_getcallargs`  (lines 163-214) -/

/-- The declared-parameter loop of `_getcallargs` (clitool.py:186-194).
`optional` is the Python list of `(name, default)` tuples; faithful to the
source, the membership test `name in optional` compares the string `name`
against each tuple with Python `==`, and the (then unreachable)
`optional[name]` lookup indexes a list with a string, a `TypeError`. -/
def getcallargsLoop (optional : List (String × PyVal))
    (kwargs : List (String × PyVal)) :
    List String → Except PyExc (List PyVal)
  | [] => .ok []
  | name :: rest =>
    if name = "self" then getcallargsLoop optional kwargs rest
    else
      match kwargs.lookup name with
      | some v => (getcallargsLoop optional kwargs rest).map (v :: ·)
      | Option.none =>
        if (optional.map (fun p => PyVal.tuple [PyVal.str p.1, p.2])).any
            (pyEq (PyVal.str name)) then
          .error (.typeError "list indices must be integers or slices, not str")
        else
          .error (.valueError ("No value available for '" ++ name ++ "'"))

/-- Embeds `_getcallargs` (clitool.py:163): rebuilds `(funcargs, funckwargs)`
for `func` from the flat mapping of parsed values. -/
def _getcallargs (fs : FuncSpec) (kwargs : List (String × PyVal)) :
    Except PyExc (List PyVal × List (String × PyVal)) := do
  let optional := optionalOf fs
  let funcargs ← getcallargsLoop optional kwargs fs.args
  let funcargs ←
    match fs.varargs with
    | some v =>
      match kwargs.lookup v with
      | some items =>
        match items with
        | .tuple xs => pure (funcargs ++ xs)
        | .list xs => pure (funcargs ++ xs)
        | _ => throw (.typeError ("Expected sequence; got " ++ typeName items))
      | Option.none => pure funcargs
    | Option.none => pure funcargs
  let funckwargs ←
    match fs.keywords with
    | some k =>
      match kwargs.lookup k with
      | some mapping =>
        match mapping with
        | .none => pure []
        | .dict d => pure d
        | _ => throw (.typeError ("Expected dict; got " ++ typeName mapping))
      | Option.none => pure []
    | Option.none => pure []
  pure (funcargs, funckwargs)

/-!  ## `clitool.py`: `Result`, `CLITool.execute`, `CLITool.__call__` -/

/-- Embeds the namedtuple `Result` (clitool.py:39).  `output` is `PyVal.none`
both for a callable that returned `None` and when the callable raised
(`output` keeps its initial `None`); `error` is `sys.exc_info()` reduced to
the exception value. -/
structure ResultV where
  status : Int
  output : PyVal
  error : Option PyExc

/-- A wrapped target callable: positional arguments and keyword arguments
to an outcome (normal return value, or a raised exception). -/
def PyCallable : Type :=
  List PyVal → List (String × PyVal) → Except PyExc PyVal

/-- Embeds `CLITool.execute` (clitool.py:364): runs the wrapped callable and
packages the outcome.  On success `status = 0` and `output` is the return
value; on any exception `status = 1`, `output` stays `None` and the
exception is recorded.  Timing and log emission are side effects with no
bearing on the returned `Result`. -/
def execute (func : PyCallable) (args : List PyVal)
    (kwargs : List (String × PyVal)) : ResultV :=
  match func args kwargs with
  | .ok v => ⟨0, v, Option.none⟩
  | .error e => ⟨1, PyVal.none, some e⟩

/-- Result of `inspect.getfullargspec(config_logging)` (clitool.py:257). -/
def config_logging_spec : FuncSpec :=
  ⟨["logfile", "logwrite", "loglevel"], Option.none, Option.none,
   [PyVal.none, PyVal.none, PyVal.int 20]⟩

/-- Result of `inspect.getdoc(config_logging)` (clitool.py:258-264). -/
def config_logging_doc : String :=
  "Configure logging to emit messages to the console and optional log files.\n\nArgs:\n    logfile: log file name; file is opened in append mode.\n    logwrite: log file name; file is opened in write mode.\n    loglevel: logging level; default is 20 (logging.INFO).\n"

/-- The parser built by the `CLITool.parser` property (clitool.py:323-362)
for a tool whose `parse_doc` is false: the target function's arguments, then
the logging-manager group's arguments, whose help texts come from parsing
the logging manager's docstring. -/
def clitool_argparser (fs : FuncSpec) (func_help : List (String × String)) :
    Except PyExc (List ArgSpec) := do
  let parsed ← parse_docstr config_logging_doc
  let logHelp ←
    match parsed.args with
    | some a => _parse_docargs a
    | Option.none => pure []
  pure (_config_argparser fs func_help ++ _config_argparser config_logging_spec logHelp)

/-- An invocation's observable outcome: a parser-level process exit (usage
or help), an exception escaping to the caller, or a returned `Result`. -/
inductive ToolOutcome where
  | usageExit
  | raised (e : PyExc)
  | result (r : ResultV)

/-- Embeds `CLITool.__call__` (clitool.py:410) for a tool with `parse_doc`
false and default `logmngr`: parse the tokens, split the namespace against
the logging manager's and the target's signatures, configure logging (a
side effect), execute the target, and return its `Result`. -/
def clitool_call (fs : FuncSpec) (impl : PyCallable)
    (func_help : List (String × String)) (tokens : List String) : ToolOutcome :=
  match clitool_argparser fs func_help with
  | .error e => .raised e
  | .ok specs =>
    match parseTokens specs tokens with
    | .error _ => .usageExit
    | .ok params =>
      match _getcallargs config_logging_spec params with
      | .error e => .raised e
      | .ok _ =>
        match _getcallargs fs params with
        | .error e => .raised e
        | .ok (a, kw) => .result (execute impl a kw)

/-!  ## `clitoolbox.py`: `CLIToolbox` -/

/-- What a registered command returns when invoked: a `Result` object, or
anything else — treated as a status code (clitoolbox.py:111-113). -/
inductive ToolRet where
  | result (r : ResultV)
  | status (n : Int)

/-- A registrable callable: its docstring (for `parse_doc`), and its
behaviour on a token list. -/
structure PyFunc where
  doc : String
  run : List String → ToolRet

/-- The lazily built toolbox parser: the `description` and the `choices` of
its single optional `subcommand` positional (clitoolbox.py:53-58). -/
structure ToolboxParser where
  description : Option String
  choices : List String

/-- Embeds the `CLIToolbox` instance state (clitoolbox.py:45-48):
`_commands` is the registry of `(func, name, description)` entries. -/
structure Toolbox where
  description : Option String
  _parserCache : Option ToolboxParser
  _commands : List (PyFunc × String × Option String)

/-- Python truthiness of an optional string: `None` and `""` are falsy. -/
def strFalsy (s : Option String) : Bool :=
  match s with
  | Option.none => true
  | some t => t = ""

/-- Python `a or b` on optional strings. -/
def pyOr (a b : Option String) : Option String :=
  if strFalsy a then b else a

/-- Embeds `CLIToolbox.add_command` (clitoolbox.py:62): reject a name
containing a space, optionally derive the description from the callable's
docstring, then invalidate the cached parser and append the registry entry. -/
def add_command (tb : Toolbox) (func : PyFunc) (name : String)
    (description : Option String) (parse_doc : Bool) :
    Except PyExc Toolbox :=
  if strHasChar name ' ' then
    .error (.valueError ("name cannot contain spaces; got '" ++ name ++ "'"))
  else
    (if parse_doc && strFalsy description then
      (parse_docstr func.doc).map (fun parsed =>
        pyOr parsed.summary parsed.description)
    else .ok description).map (fun d =>
      ⟨tb.description, Option.none, tb._commands ++ [(func, name, d)]⟩)

/-- Embeds the `CLIToolbox.parser` property (clitoolbox.py:50-60): build the
parser on first access with `choices` drawn from the registry at that
moment, and cache it. -/
def toolboxParser (tb : Toolbox) : ToolboxParser × Toolbox :=
  match tb._parserCache with
  | some p => (p, tb)
  | Option.none =>
    let p : ToolboxParser := ⟨tb.description, tb._commands.map (fun c => c.2.1)⟩
    (p, { tb with _parserCache := some p })

/-- Models `parse_known_args` for the single optional `subcommand` positional:
option-like tokens pass through to `extra`; the first plain token must be
one of `choices` (else argparse exits with a usage error) and becomes the
subcommand, every other token lands in `extra` in order. -/
def parseKnownSub (choices : List String) :
    List String → Except Unit (Option String × List String)
  | [] => .ok (Option.none, [])
  | tok :: rest =>
    if strStarts tok "-" then
      (parseKnownSub choices rest).map (fun p => (p.1, tok :: p.2))
    else if choices.contains tok then .ok (some tok, rest)
    else .error ()

/-- Outcome of a toolbox invocation: help printed and process exit 0, a
parser usage exit, an escaped exception, or a returned `Result`. -/
inductive ToolboxOutcome where
  | helpExit
  | usageError
  | raised (e : PyExc)
  | result (r : ResultV)

/-- Embeds `CLIToolbox.__call__` (clitoolbox.py:88): parse the subcommand,
print help and exit when there is none, otherwise dispatch to the **first**
registry entry bearing that name, passing the remaining tokens (or `"-h"`
when none remain), and wrap a non-`Result` return as a status code. -/
def toolbox_call (tb : Toolbox) (args : List String) : ToolboxOutcome :=
  match parseKnownSub (toolboxParser tb).1.choices args with
  | .error _ => .usageError
  | .ok (Option.none, _) => .helpExit
  | .ok (some sub, extra) =>
    if sub = "" then .helpExit
    else
      match (tb._commands.find? (fun item => item.2.1 = sub)).map
          (fun item => item.1) with
      | Option.none => .raised (.typeError "'NoneType' object is not callable")
      | some f =>
        match (if extra.isEmpty then f.run ["-h"] else f.run extra) with
        | .result r => .result r
        | .status n => .result ⟨n, PyVal.none, Option.none⟩

/-!  ## Claim-side reading of the docargs contract (for the refinement
claim about `_parse_docargs`) -/

/-- Written from the spec's words, not the source: each line matching
`^(\w+):(.+)$` starts a new entry (which becomes the current one), each
non-matching line is appended to the most recently started entry's
description joined by a single space with the line trimmed, and a
non-matching line before any entry has started is a fatal input error. -/
def parse_args_block_spec_go (current : Option String)
    (entries : List (String × String)) :
    List String → Except PyExc (List (String × String))
  | [] => .ok entries
  | line :: rest =>
    match matchDocargLine line with
    | some (n, d) =>
        parse_args_block_spec_go (some n) (odSet entries n (pyStrip d)) rest
    | Option.none =>
      match current with
      | some n =>
          parse_args_block_spec_go current
            (entries.map (fun p =>
              if p.1 = n then (p.1, p.2 ++ " " ++ pyStrip line) else p)) rest
      | Option.none =>
          .error (.valueError ("Expected name: value pair; got '" ++ line ++ "'"))

/-- The spec-side docargs parser (see `parse_args_block_spec_go`). -/
def parse_args_block_spec (text : String) :
    Except PyExc (List (String × String)) :=
  parse_args_block_spec_go Option.none [] (splitlines text)

/-- One step of the first-seen key order: a matching line contributes its
name if not seen yet, a non-matching line contributes nothing. -/
def seenStep (acc : List String) (l : String) : List String :=
  match matchDocargLine l with
  | some (n, _) => if acc.any (· = n) then acc else acc ++ [n]
  | Option.none => acc

/-- The names of the matching lines, in first-seen order. -/
def firstSeenNames (lines : List String) : List String :=
  lines.foldl seenStep []

/-!  ## Concrete fixtures -/

/-- Result of `inspect.getfullargspec(_test1)` for the test callable
`_test1(param1, param2, *args, **kwargs)` (tests/test_clitool.py). -/
def test1Spec : FuncSpec :=
  ⟨["param1", "param2"], some "args", some "kwargs", []⟩

/-- The body of `_test1` (tests/test_clitool.py): returns the tuple
`(param1, param2, args, kwargs)`. -/
def test1Impl : PyCallable := fun args kwargs =>
  match args with
  | p1 :: p2 :: rest => .ok (.tuple [p1, p2, .tuple rest, .dict kwargs])
  | _ => .error (.typeError "missing required positional arguments")

/-- A do-nothing registrable command. -/
def fStub : PyFunc := ⟨"", fun _ => .status 0⟩

/-- A command reporting status 5, to observe which entry dispatch reaches. -/
def fRet5 : PyFunc := ⟨"", fun _ => .status 5⟩

/-- A command reporting status 7, registered under the same name as `fRet5`. -/
def fRet7 : PyFunc := ⟨"", fun _ => .status 7⟩

/-- A toolbox that already holds one command named `"add"`. -/
def tbAdd : Toolbox := ⟨Option.none, Option.none, [(fStub, "add", Option.none)]⟩

/-!  ## Claims -/

/-- C1: the claim says a declared optional parameter absent from the parsed
mapping gets its declared default appended; in the code the membership test
`name in optional` compares the string against `(name, default)` tuples and
is therefore never true, so every absent parameter — optional or not — hits
the `ValueError`.  The first conjunct proves the test is identically false;
the second evaluates `_getcallargs` at a callable `f(a, b=2)` with `b`
absent from the mapping: the code raises `"No value available for 'b'"`
instead of appending the default `2`. -/
theorem getcallargs_missing_optional_raises :
    (∀ (name : String) (optional : List (String × PyVal)),
      (optional.map (fun p => PyVal.tuple [PyVal.str p.1, p.2])).any
        (pyEq (PyVal.str name)) = false) ∧
    _getcallargs ⟨["a", "b"], Option.none, Option.none, [PyVal.int 2]⟩
      [("a", PyVal.str "x")] =
      .error (.valueError "No value available for 'b'") := by
  constructor
  · intro name optional
    induction optional with
    | nil => rfl
    | cons p ps ih =>
        simp only [List.map_cons, List.any_cons, ih, Bool.or_false]
        rfl
  · rfl

/-- C2: the compiled interface round-trips — for the callable
`f(param1, param2, *args, **kwargs)`, invoking the tool with tokens
`("A", "B", "C", "D", '--kwargs={"E": 5}')` reconstructs the call
`f("A", "B", "C", "D", E=5)` and yields
`Result(status=0, output=("A", "B", ("C", "D"), {"E": 5}), error=None)`. -/
theorem roundtrip_scenario_A :
    clitool_call test1Spec test1Impl []
      ["A", "B", "C", "D", "--kwargs=\x7b\"E\": 5\x7d"] =
    .result ⟨0, .tuple [.str "A", .str "B", .tuple [.str "C", .str "D"],
                        .dict [("E", .int 5)]], Option.none⟩ := rfl

/-- C3: `CLITool.execute` always returns a `Result`: when the callable
returns `v` the result is `Result(0, v, None)`, and when it raises any
exception `e` the result is `Result(1, None, e)`; the wrapper itself never
raises (its Lean embedding is total into `ResultV` by construction). -/
theorem execute_wraps_outcome (f : PyCallable) (a : List PyVal)
    (kw : List (String × PyVal)) :
    (∀ v, f a kw = .ok v → execute f a kw = ⟨0, v, Option.none⟩) ∧
    (∀ e, f a kw = .error e → execute f a kw = ⟨1, PyVal.none, some e⟩) := by
  constructor <;> intro x h <;> simp [execute, h]

/-- Witness for C3 at a returning and at a raising callable. -/
theorem execute_wraps_outcome_witness :
    execute (fun _ _ => .ok (.int 7)) [] [] = ⟨0, .int 7, Option.none⟩ ∧
    execute (fun _ _ => .error (.valueError "boom")) [] [] =
      ⟨1, PyVal.none, some (.valueError "boom")⟩ :=
  ⟨(execute_wraps_outcome (fun _ _ => .ok (.int 7)) [] []).1 _ rfl,
   (execute_wraps_outcome (fun _ _ => .error (.valueError "boom")) [] []).2 _ rfl⟩

/-- C6: the converter for an optional parameter is chosen from the runtime
type of its default in the priority bool → int → float → datetime → none: a
boolean default gets the strict boolean parser (never the integer parser,
although `isinstance(True, int)` holds), and a default of any other type —
including `None` — gets no converter.  The final conjunct ties the chain to
the parser compiler: every optional `(name, default)` contributes the flag
argument `dashName name` with converter `_default_type default`. -/
theorem default_type_priority :
    (∀ b, _default_type (.bool b) = some Conv.toBool) ∧
    (∀ b, _default_type (.bool b) ≠ some Conv.toInt) ∧
    (∀ n, _default_type (.int n) = some Conv.toInt) ∧
    (∀ s, _default_type (.float s) = some Conv.toFloat) ∧
    (∀ s, _default_type (.datetime s) = some Conv.toDate) ∧
    _default_type .none = Option.none ∧
    (∀ s, _default_type (.str s) = Option.none) ∧
    (∀ xs, _default_type (.list xs) = Option.none) ∧
    (∀ xs, _default_type (.tuple xs) = Option.none) ∧
    (∀ es, _default_type (.dict es) = Option.none) ∧
    (∀ fs fh p, p ∈ optionalOf fs →
      (ArgSpec.mk p.1 (some (dashName p.1)) false p.2 (_default_type p.2)
        (fh.lookup p.1)) ∈ _config_argparser fs fh) := by
  refine ⟨fun b => rfl, fun b => by simp [_default_type, isinstance_bool],
    fun n => rfl, fun s => rfl, fun s => rfl, rfl, fun s => rfl, fun xs => rfl,
    fun xs => rfl, fun es => rfl, fun fs fh p hp => ?_⟩
  unfold _config_argparser
  exact List.mem_append_left _ (List.mem_append_left _
    (List.mem_append_right _ (List.mem_map_of_mem _ hp)))

/-- Witness for C6 at a callable with a single boolean-defaulted optional. -/
theorem default_type_priority_witness :
    (ArgSpec.mk "x" (some (dashName "x")) false (.bool false)
      (_default_type (.bool false)) (List.lookup "x" [])) ∈
      _config_argparser ⟨["x"], Option.none, Option.none, [.bool false]⟩ [] :=
  default_type_priority.2.2.2.2.2.2.2.2.2.2
    ⟨["x"], Option.none, Option.none, [.bool false]⟩ [] ("x", .bool false)
    (List.mem_singleton.mpr rfl)

/-- C7 counterexample: the claim requires a value error for every string
other than exactly `"True"`, `"1"`, `"False"`, `"0"`, but `"true"` — none
of those four — is accepted and converted to `True`, because the code
compares `text.title()` rather than `text`. -/
theorem to_bool_counterexample :
    _to_bool "true" = .ok true ∧ "true" ≠ "True" ∧ "true" ≠ "1" :=
  ⟨rfl, by decide, by decide⟩

/-- C7 (amended): `_to_bool` returns true iff the title-cased input is
`"True"` or `"1"` (so `"true"`, `"TRUE"`, … are accepted too), false iff
the title-cased input is `"False"` or `"0"`, and otherwise raises the value
error naming the allowed literal set. -/
theorem to_bool_title_cased (t : String) :
    (_to_bool t = .ok true ↔ (pyTitle t = "True" ∨ pyTitle t = "1")) ∧
    (_to_bool t = .ok false ↔ (pyTitle t = "False" ∨ pyTitle t = "0")) ∧
    ((pyTitle t ≠ "True" ∧ pyTitle t ≠ "1" ∧ pyTitle t ≠ "False" ∧ pyTitle t ≠ "0") →
      _to_bool t = .error (.valueError
        ("Expected 'True', 'False', '1', '0'; got '" ++ t ++ "'"))) := by
  unfold _to_bool
  split_ifs with h1 h2
  · refine ⟨⟨fun _ => h1, fun _ => rfl⟩, ⟨fun h => absurd h (by simp), fun h2 => ?_⟩,
      fun hne => ?_⟩
    · rcases h1 with ha | ha <;> rcases h2 with hb | hb <;>
        (rw [ha] at hb; exact absurd hb (by decide))
    · rcases h1 with ha | ha
      · exact absurd ha hne.1
      · exact absurd ha hne.2.1
  · refine ⟨⟨fun h => absurd h (by simp), fun h => absurd h h1⟩,
      ⟨fun _ => h2, fun _ => rfl⟩, fun hne => ?_⟩
    rcases h2 with hb | hb
    · exact absurd hb hne.2.2.1
    · exact absurd hb hne.2.2.2
  · exact ⟨⟨fun h => absurd h (by simp), fun h => absurd h h1⟩,
      ⟨fun h => absurd h (by simp), fun h => absurd h h2⟩, fun _ => rfl⟩

/-- Witness for C7 at the spec's boundary example `"yes"` (rejected, citing
the allowed set) and at `"0"` (decoding to false). -/
theorem to_bool_title_cased_witness :
    _to_bool "yes" =
      .error (.valueError "Expected 'True', 'False', '1', '0'; got 'yes'") ∧
    _to_bool "0" = .ok false :=
  ⟨(to_bool_title_cased "yes").2.2 (by decide),
   (to_bool_title_cased "0").2.1.mpr (by decide)⟩

/-- C4 counterexample: in `parse_docstr "Returns:\nstuff\nArgs:\nmore"` the
misordered `Args:` line (a header appearing after the `Returns:` section
began) does NOT appear in the returns body — the claim predicts the body
`"stuff\nArgs:\nmore"`, but the body is `"stuff"`, the misordered header
having terminated collection; it starts no `args` section either, and it
and everything after it are absent from the result. -/
theorem misordered_header_counterexample :
    parse_docstr "Returns:\nstuff\nArgs:\nmore" =
      .ok ⟨Option.none, Option.none, Option.none, some "stuff",
           Option.none, Option.none⟩ ∧
    strContains "stuff" "Args:" = false ∧
    "stuff" ≠ "stuff" ++ linesep ++ "Args:" ++ linesep ++ "more" :=
  ⟨rfl, rfl, by decide⟩

/-- C4 (amended): a line that looks like any section header (case
insensitively, trailing colons stripped) is never part of a collected
section body — `takewhile(test, …)` stops at it — so a misordered header is
not absorbed as body text; it terminates the current section and, not being
matched by any later exact-header check, is discarded together with the
lines after it. -/
theorem misordered_header_not_body (lines : List String) (l : String)
    (h : l ∈ takeBody lines) : isSectionHeaderLike l = false := by
  induction lines with
  | nil => cases h
  | cons a as ih =>
    unfold takeBody at h ih
    rw [List.takeWhile_cons] at h
    by_cases hd : docTest a = true
    · rw [if_pos hd] at h
      rcases List.mem_cons.mp h with rfl | h2
      · unfold docTest at hd
        simpa using hd
      · exact ih h2
    · rw [if_neg hd] at h
      cases h

/-- Witness for C4's amended theorem on the counterexample's line list. -/
theorem misordered_header_not_body_witness :
    isSectionHeaderLike "stuff" = false :=
  misordered_header_not_body ["stuff", "Args:", "more"] "stuff" (by decide)

/-- C5 counterexample: registering a second command under the
already-registered name `"add"` does NOT raise — the registry ends with two
`"add"` entries (the code has no duplicate check) — and a name containing
non-space whitespace (a tab) is accepted too, since the code only tests
`" " in name`. -/
theorem add_command_counterexample :
    ((add_command tbAdd fStub "add" Option.none false).map
      (fun tb => tb._commands.map (fun c => c.2.1))) = .ok ["add", "add"] ∧
    ((add_command tbAdd fStub "a\tb" Option.none false).map
      (fun tb => tb._commands.map (fun c => c.2.1))) = .ok ["add", "a\tb"] :=
  ⟨rfl, rfl⟩

/-- C5 (amended): `add_command` raises the configuration error (returning no
new state, so the registry is unchanged) exactly when the name contains a
space character; any other name — including a duplicate of a registered
name, and names with non-space whitespace — is appended to the registry. -/
theorem add_command_space_check (tb : Toolbox) (f : PyFunc) (name : String)
    (desc : Option String) (pd : Bool) :
    (strHasChar name ' ' = true →
      add_command tb f name desc pd =
        .error (.valueError ("name cannot contain spaces; got '" ++ name ++ "'"))) ∧
    (strHasChar name ' ' = false →
      (add_command tb f name desc false).map (fun tb2 => tb2._commands) =
        .ok (tb._commands ++ [(f, name, desc)])) := by
  constructor
  · intro h
    unfold add_command
    rw [if_pos h]
  · intro h
    unfold add_command
    rw [if_neg (by simp [h])]
    rfl

/-- Witness for C5's amended theorem: a spaced name is rejected, a fresh
name is appended after the existing entry. -/
theorem add_command_space_check_witness :
    add_command tbAdd fStub "a b" Option.none false =
      .error (.valueError "name cannot contain spaces; got 'a b'") ∧
    (add_command tbAdd fStub "sub" Option.none false).map
        (fun tb2 => tb2._commands) =
      .ok (tbAdd._commands ++ [(fStub, "sub", Option.none)]) :=
  ⟨(add_command_space_check tbAdd fStub "a b" Option.none false).1 (by decide),
   (add_command_space_check tbAdd fStub "sub" Option.none false).2 (by decide)⟩

/-- Lemma: `find?` skips a leading segment containing no match. -/
theorem find_skip_nonmatching {α : Type} (p : α → Bool) (l1 l2 : List α)
    (h : ∀ e ∈ l1, p e = false) : (l1 ++ l2).find? p = l2.find? p := by
  induction l1 with
  | nil => rfl
  | cons a as ih =>
    rw [List.cons_append, List.find?_cons, h a (List.mem_cons_self a as)]
    exact ih (fun e he => h e (List.mem_cons_of_mem a he))

/-- C9: when several commands share a name, the toolbox dispatches to the
earliest-registered bearer of that name: with no entry of `pre` named `n`,
invoking with `n :: ts` runs `f1` — whatever duplicates `mid` holds — on
`ts` (or on `["-h"]` when `ts` is empty), wrapping a non-`Result` return as
a status code; every later registration under `n` is unreachable. -/
theorem dispatch_earliest (dsc : Option String)
    (pre mid : List (PyFunc × String × Option String))
    (f1 : PyFunc) (n : String) (d1 : Option String) (ts : List String)
    (hpre : ∀ e ∈ pre, e.2.1 ≠ n)
    (hdash : strStarts n "-" = false) (hne : n ≠ "") :
    toolbox_call ⟨dsc, Option.none, pre ++ (f1, n, d1) :: mid⟩ (n :: ts) =
      (match (if ts.isEmpty then f1.run ["-h"] else f1.run ts) with
       | .result r => .result r
       | .status k => .result ⟨k, PyVal.none, Option.none⟩) := by
  have hmem : n ∈ (pre ++ (f1, n, d1) :: mid).map (fun c => c.2.1) :=
    List.mem_map_of_mem _ (List.mem_append_right _ (List.mem_cons_self _ _))
  have hc : ((pre ++ (f1, n, d1) :: mid).map (fun c => c.2.1)).contains n = true :=
    List.elem_eq_true_of_mem hmem
  have hparse :
      parseKnownSub ((pre ++ (f1, n, d1) :: mid).map (fun c => c.2.1)) (n :: ts) =
        .ok (some n, ts) := by
    unfold parseKnownSub
    rw [hdash]
    simp [hc]
  have hfind : ((pre ++ (f1, n, d1) :: mid).find? (fun item => item.2.1 = n)) =
      some (f1, n, d1) := by
    rw [find_skip_nonmatching _ pre _
      (fun e he => decide_eq_false (hpre e he))]
    simp [List.find?_cons]
  unfold toolbox_call
  have hch : (toolboxParser ⟨dsc, Option.none, pre ++ (f1, n, d1) :: mid⟩).1.choices
      = (pre ++ (f1, n, d1) :: mid).map (fun c => c.2.1) := rfl
  rw [hch, hparse]
  simp only []
  rw [if_neg hne, hfind]
  rfl

/-- Witness for C9: two commands both named `"add"`; dispatch reaches the
first (status 5), never the second (status 7). -/
theorem dispatch_earliest_witness :
    toolbox_call ⟨Option.none, Option.none,
        [(fRet5, "add", Option.none), (fRet7, "add", Option.none)]⟩
      ["add", "10", "20"] = .result ⟨5, PyVal.none, Option.none⟩ :=
  (dispatch_earliest Option.none [] [(fRet7, "add", Option.none)] fRet5 "add"
    Option.none ["10", "20"] (by simp) (by decide) (by decide)).trans rfl

/-- C10: a successful `add_command` clears the cached parser, and the parser
rebuilt on the next access offers exactly the names of the commands
registered at that moment — in particular the just-registered name is among
the accepted subcommand choices. -/
theorem add_clears_parser_cache (tb : Toolbox) (f : PyFunc) (name : String)
    (desc : Option String) (pd : Bool) (tb' : Toolbox)
    (h : add_command tb f name desc pd = .ok tb') :
    tb'._parserCache = Option.none ∧
    (toolboxParser tb').1.choices = tb'._commands.map (fun c => c.2.1) ∧
    name ∈ (toolboxParser tb').1.choices := by
  unfold add_command at h
  by_cases hs : strHasChar name ' '
  · rw [if_pos hs] at h
    cases h
  · rw [if_neg hs] at h
    cases hd : (if pd && strFalsy desc then
        (parse_docstr f.doc).map (fun parsed =>
          pyOr parsed.summary parsed.description)
      else .ok desc) with
    | error e => rw [hd] at h; cases h
    | ok d =>
      rw [hd] at h
      cases h
      refine ⟨rfl, rfl, ?_⟩
      show name ∈ (tb._commands ++ [(f, name, d)]).map (fun c => c.2.1)
      exact List.mem_map_of_mem _
        (List.mem_append_right _ (List.mem_cons_self _ _))

/-- Witness for C10: registering `"add"` into an empty toolbox leaves no
cached parser, and the rebuilt parser's choices are exactly `["add"]`. -/
theorem add_clears_parser_cache_witness :
    (Toolbox.mk Option.none Option.none [(fStub, "add", Option.none)])._parserCache
        = Option.none ∧
    (toolboxParser
        ⟨Option.none, Option.none, [(fStub, "add", Option.none)]⟩).1.choices =
      ([(fStub, "add", Option.none)] :
        List (PyFunc × String × Option String)).map (fun c => c.2.1) ∧
    "add" ∈ (toolboxParser
        ⟨Option.none, Option.none, [(fStub, "add", Option.none)]⟩).1.choices :=
  add_clears_parser_cache ⟨Option.none, Option.none, []⟩ fStub "add"
    Option.none false _ rfl

/-- String concatenation is associative. -/
theorem strAppend_assoc (a b c : String) : a ++ b ++ c = a ++ (b ++ c) := by
  cases a with | mk da => cases b with | mk db => cases c with | mk dc =>
  exact congrArg String.mk (List.append_assoc da db dc)

/-- One-step unfolding of the docargs loop on a nonempty line list. -/
theorem docargsGo_cons (name? : Option String)
    (result : List (String × String)) (line : String) (rest : List String) :
    docargsGo name? result (line :: rest) =
      match matchDocargLine line with
      | some (n, d) => docargsGo (some n) (odSet result n (pyStrip d)) rest
      | Option.none =>
        match name? with
        | some n => docargsGo name? (odAppend result n (" " ++ pyStrip line)) rest
        | Option.none =>
            .error (.valueError ("Expected name: value pair; got '" ++ line ++ "'")) :=
  rfl

/-- One-step unfolding of the spec-side loop on a nonempty line list. -/
theorem spec_go_cons (current : Option String)
    (entries : List (String × String)) (line : String) (rest : List String) :
    parse_args_block_spec_go current entries (line :: rest) =
      match matchDocargLine line with
      | some (n, d) =>
          parse_args_block_spec_go (some n) (odSet entries n (pyStrip d)) rest
      | Option.none =>
        match current with
        | some n =>
            parse_args_block_spec_go current
              (entries.map (fun p =>
                if p.1 = n then (p.1, p.2 ++ " " ++ pyStrip line) else p)) rest
        | Option.none =>
            .error (.valueError ("Expected name: value pair; got '" ++ line ++ "'")) :=
  rfl

/-- The source loop and the spec-side loop of the docargs parser agree. -/
theorem docargsGo_eq_spec (lines : List String) :
    ∀ (name? : Option String) (entries : List (String × String)),
    docargsGo name? entries lines = parse_args_block_spec_go name? entries lines := by
  induction lines with
  | nil => intro _ _; rfl
  | cons l ls ih =>
    intro name? entries
    rw [docargsGo_cons, spec_go_cons]
    cases hm : matchDocargLine l with
    | some nd =>
      obtain ⟨n, d⟩ := nd
      exact ih _ _
    | none =>
      cases name? with
      | none => rfl
      | some n =>
        have harg : odAppend entries n (" " ++ pyStrip l) =
            entries.map (fun p =>
              if p.1 = n then (p.1, p.2 ++ " " ++ pyStrip l) else p) := by
          unfold odAppend
          exact List.map_congr_left (fun p _ => by
            by_cases hp : p.1 = n <;> simp [hp, strAppend_assoc])
        simp only []
        rw [harg]
        exact ih _ _

/-- Once a name has been started, the docargs loop can no longer fail. -/
theorem docargsGo_ok_of_name (ls : List String) :
    ∀ (n : String) (entries : List (String × String)),
    ∃ r, docargsGo (some n) entries ls = .ok r := by
  induction ls with
  | nil => intro n entries; exact ⟨entries, rfl⟩
  | cons l ls2 ih =>
    intro n entries
    rw [docargsGo_cons]
    cases hm : matchDocargLine l with
    | some nd =>
      obtain ⟨n2, d⟩ := nd
      exact ih _ _
    | none =>
      exact ih _ _

/-- Lemma: `odSet` updates an existing key in place or appends a fresh one. -/
theorem odSet_keys (d : List (String × String)) (k v : String) :
    (odSet d k v).map Prod.fst =
      if (d.map Prod.fst).any (· = k) then d.map Prod.fst
      else d.map Prod.fst ++ [k] := by
  unfold odSet
  have hbridge : (List.map Prod.fst d).any (· = k) = d.any (·.1 = k) := by
    induction d with
    | nil => rfl
    | cons p ps ihp => simp only [List.map_cons, List.any_cons, ihp]
  rw [hbridge]
  by_cases h : d.any (·.1 = k)
  · rw [if_pos h, if_pos h, List.map_map]
    exact List.map_congr_left (fun p _ => by
      by_cases hp : p.1 = k <;> simp [hp])
  · rw [if_neg h, if_neg h, List.map_append]
    rfl

/-- Lemma: `odAppend` never changes the key list. -/
theorem odAppend_keys (d : List (String × String)) (k a : String) :
    (odAppend d k a).map Prod.fst = d.map Prod.fst := by
  unfold odAppend
  rw [List.map_map]
  exact List.map_congr_left (fun p _ => by
    by_cases hp : p.1 = k <;> simp [hp])

/-- On success the docargs loop's key list extends the initial keys by the
not-yet-seen matched names, in first-seen order. -/
theorem docargsGo_keys (lines : List String) :
    ∀ (name? : Option String) (entries : List (String × String)) r,
    docargsGo name? entries lines = .ok r →
    r.map Prod.fst = lines.foldl seenStep (entries.map Prod.fst) := by
  induction lines with
  | nil =>
    intro name? entries r h
    cases h
    rfl
  | cons l ls ih =>
    intro name? entries r h
    rw [docargsGo_cons] at h
    rw [List.foldl_cons]
    cases hm : matchDocargLine l with
    | some nd =>
      obtain ⟨n, d⟩ := nd
      rw [hm] at h
      rw [ih _ _ _ h, odSet_keys]
      unfold seenStep
      rw [hm]
    | none =>
      rw [hm] at h
      cases name? with
      | none => cases h
      | some n =>
        rw [ih _ _ _ h, odAppend_keys]
        unfold seenStep
        rw [hm]

/-- C8: `_parse_docargs` satisfies the claimed contract.  (1) It coincides
with the spec-worded parser `parse_args_block_spec` on every input (each
matching line starts/overwrites an entry and becomes current, each
non-matching line is space-joined, trimmed, onto the current entry).  (2) It
raises the fatal "Expected name: value pair" error exactly when a
non-matching line occurs before any entry has started — equivalently, when
the first line fails to match.  (3) On success its keys are the matched
names in first-seen order. -/
theorem parse_docargs_contract :
    (∀ text, _parse_docargs text = parse_args_block_spec text) ∧
    (∀ text, (∃ e, _parse_docargs text = .error e) ↔
      (∃ l ls, splitlines text = l :: ls ∧ matchDocargLine l = Option.none)) ∧
    (∀ text r, _parse_docargs text = .ok r →
      r.map Prod.fst = firstSeenNames (splitlines text)) := by
  refine ⟨fun text => docargsGo_eq_spec _ _ _, fun text => ⟨?_, ?_⟩,
    fun text r h => docargsGo_keys _ _ _ _ h⟩
  · rintro ⟨e, he⟩
    unfold _parse_docargs at he
    cases hsp : splitlines text with
    | nil => rw [hsp] at he; cases he
    | cons l ls =>
      rw [hsp] at he
      refine ⟨l, ls, rfl, ?_⟩
      cases hmm : matchDocargLine l with
      | none => rfl
      | some nd =>
        obtain ⟨n, d⟩ := nd
        rw [docargsGo_cons, hmm] at he
        have he2 : docargsGo (some n) (odSet [] n (pyStrip d)) ls = .error e := he
        obtain ⟨r, hr⟩ := docargsGo_ok_of_name ls n (odSet [] n (pyStrip d))
        rw [hr] at he2
        cases he2
  · rintro ⟨l, ls, hsp, hm⟩
    unfold _parse_docargs
    rw [hsp, docargsGo_cons, hm]
    exact ⟨_, rfl⟩

/-- Witness for C8 at a two-entry block with a continuation line. -/
theorem parse_docargs_contract_witness :
    ([("a", "x more"), ("b", "y")] : List (String × String)).map Prod.fst =
      firstSeenNames (splitlines "a: x\nmore\nb: y") :=
  parse_docargs_contract.2.2 "a: x\nmore\nb: y" [("a", "x more"), ("b", "y")] rfl

end Clitool2
